import Mathlib

/-!
# domain-cert (`main.go`): configuration store, console authentication, issuance runner

A shallow embedding of `main.go`.  Go strings and byte slices are byte sequences
(`GoString`); the process-wide variable `cfg` and the file `config.json` are
fields of an explicit `World` that every operation takes and returns; external
commands, log lines and `os.MkdirAll` calls of `issueAll` are recorded as a
list of `Event`s.  Library behaviour the program only calls (`json.Unmarshal`,
`json.Encoder.Encode`, `http.ServeFile`) is a field of `Lib`, and every theorem
holds for every `Lib`; the path `filepath.Join(os.Getenv("HOME"), ".acme.sh/acme.sh")`
is the parameter `acme` of the runner.  `base64.StdEncoding`, `strings.TrimPrefix`,
`strings.SplitN` and `strconv.Itoa` are modelled in full, since the
authentication and issuance properties depend on what they compute.

Not modelled: time (the elapsed seconds in the step lines, the six-hour
ticker), the interleaving of goroutines (`go issueAll()` is counted, a run is
described on the configuration it reads), and the output the external commands
write to the log file.
-/

namespace DomainCert

/-! ## Bytes and strings -/

/-- One byte. -/
abbrev Byte := Fin 256

/-- A Go `string` or `[]byte`: a finite sequence of bytes. -/
abbrev GoString := List Byte

/-- Truncation of a natural number to a byte, Go's `byte(x)`. -/
def byte (n : Nat) : Byte := ⟨n % 256, Nat.mod_lt n (by decide)⟩

/-- UTF-8 encoding of one code point, as the Go compiler stores string literals. -/
def utf8 (n : Nat) : List Nat :=
  if n < 0x80 then [n]
  else if n < 0x800 then [0xC0 + n / 64, 0x80 + n % 64]
  else if n < 0x10000 then [0xE0 + n / 4096, 0x80 + n / 64 % 64, 0x80 + n % 64]
  else [0xF0 + n / 262144, 0x80 + n / 4096 % 64, 0x80 + n / 64 % 64, 0x80 + n % 64]

/-- The bytes of a string literal of the source. -/
def lit (s : String) : GoString :=
  (s.data.flatMap (fun c => utf8 c.toNat)).map byte

/-! ## `encoding/base64`, `StdEncoding` -/

/-- The alphabet of `base64.StdEncoding` (RFC 4648, table 1). -/
def encodeStd : GoString :=
  lit "ABCDEFGHIJKLMNOPQRSTUVWXYZabcdefghijklmnopqrstuvwxyz0123456789+/"

/-- The padding character `=` of `StdEncoding`. -/
def padChar : Byte := 61

/-- The character of a six-bit value, `enc.encode[v]`. -/
def encodeChar (v : Nat) : Byte := encodeStd.getD v 0

/-- The table `enc.decodeMap`: the six-bit value of an alphabet character, `0xff`
for every other byte. -/
def decodeMap (c : Byte) : Nat :=
  let i := encodeStd.indexOf c
  if i < 64 then i else 255

/-- `StdEncoding.EncodeToString`: three bytes become four characters; a final
group of one or two bytes is padded with `=`. -/
def b64encode : GoString → GoString
  | [] => []
  | [a] =>
    let val := a.val * 65536
    [encodeChar (val / 262144 % 64), encodeChar (val / 4096 % 64), padChar, padChar]
  | [a, b] =>
    let val := a.val * 65536 + b.val * 256
    [encodeChar (val / 262144 % 64), encodeChar (val / 4096 % 64),
     encodeChar (val / 64 % 64), padChar]
  | a :: b :: c :: rest =>
    let val := a.val * 65536 + b.val * 256 + c.val
    encodeChar (val / 262144 % 64) :: encodeChar (val / 4096 % 64) ::
      encodeChar (val / 64 % 64) :: encodeChar (val % 64) :: b64encode rest

/-- Skipping `\r` and `\n`, as the decoder does after a padding character. -/
def skipNewlines : GoString → GoString
  | [] => []
  | c :: cs => if c = 10 ∨ c = 13 then skipNewlines cs else c :: cs

/-- The bytes of a quantum of `dlen` six-bit values `dbuf` (missing values are
zero): `dlen - 1` bytes of `dbuf[0]<<18 | dbuf[1]<<12 | dbuf[2]<<6 | dbuf[3]`. -/
def quantumBytes (dbuf : List Nat) : GoString :=
  let val := dbuf.getD 0 0 * 262144 + dbuf.getD 1 0 * 4096 + dbuf.getD 2 0 * 64 + dbuf.getD 3 0
  ([byte (val / 65536), byte (val / 256), byte val]).take (dbuf.length - 1)

/-- The loop of `Encoding.Decode` over `decodeQuantum`, with `dbuf` the six-bit
values read so far in the current quantum.  The result is the decoded bytes and
whether a `CorruptInputError` was raised; bytes decoded before the error are
kept, as in `dbuf[:n]` of `DecodeString`. -/
def decodeFrom : List Nat → GoString → GoString × Bool
  | dbuf, [] => ([], !dbuf.isEmpty)
  | dbuf, c :: cs =>
    if decodeMap c ≠ 255 then
      if dbuf.length = 3 then
        let r := decodeFrom [] cs
        (quantumBytes (dbuf ++ [decodeMap c]) ++ r.1, r.2)
      else decodeFrom (dbuf ++ [decodeMap c]) cs
    else if c = 10 ∨ c = 13 then decodeFrom dbuf cs
    else if c ≠ padChar then ([], true)
    else if dbuf.length < 2 then ([], true)
    else if dbuf.length = 2 then
      match skipNewlines cs with
      | [] => ([], true)
      | c2 :: cs2 =>
        if c2 ≠ padChar then ([], true)
        else (quantumBytes dbuf, !(skipNewlines cs2).isEmpty)
    else (quantumBytes dbuf, !(skipNewlines cs).isEmpty)

/-- `base64.StdEncoding.DecodeString`: the decoded bytes and the error flag. -/
def b64decode (s : GoString) : GoString × Bool := decodeFrom [] s

/-! ## `strings` and `strconv` -/

/-- `strings.TrimPrefix(s, pre)`: `s` without the leading `pre`, or `s` itself when
it does not start with `pre`. -/
def TrimPrefix (s pre : GoString) : GoString :=
  if pre.isPrefixOf s then s.drop pre.length else s

/-- The parts of `s` before and after the first occurrence of the byte `sep`
(`strings.Index` followed by the two slicings `s[:m]` and `s[m+1:]`). -/
def cut (sep : Byte) : GoString → Option (GoString × GoString)
  | [] => none
  | c :: cs =>
    if c = sep then some ([], cs)
    else (cut sep cs).map (fun p => (c :: p.1, p.2))

/-- `strings.SplitN(s, sep, n)` for a one-byte separator: at most `n` parts, the
last one holding the unsplit remainder. -/
def SplitN (s : GoString) (sep : Byte) : Nat → List GoString
  | 0 => []
  | 1 => [s]
  | n + 2 =>
    match cut sep s with
    | none => [s]
    | some (a, rest) => a :: SplitN rest sep (n + 1)

/-- `strconv.Itoa`: the decimal form of an integer. -/
def Itoa (n : Int) : GoString :=
  let digits := (Nat.toDigits 10 n.natAbs).map (fun c => byte c.toNat)
  if n < 0 then 45 :: digits else digits

/-! ## Data model -/

set_option linter.dupNamespace false in
/-- The type `Domain` of the source. -/
structure Domain where
  Domain : GoString
  Webroot : GoString
  InstallPath : GoString
deriving DecidableEq, Repr

/-- The type `Config` of the source. -/
structure Config where
  Email : GoString
  RenewDays : Int
  WebEnable : Bool
  WebUser : GoString
  WebPass : GoString
  Domains : List Domain
deriving DecidableEq, Repr

/-- The zero value of `Config`, what `var tmp Config` holds. -/
def Config.zero : Config :=
  { Email := [], RenewDays := 0, WebEnable := false, WebUser := [], WebPass := [],
    Domains := [] }

/-- What the operating system does with one `os.WriteFile` call on `config.json`:
it carries it out, or it fails with an error and leaves the file in some state
`left` (absent, the old content, a truncated one). -/
inductive WriteResult where
  | ok
  | failed (err : GoString) (left : Option GoString)
deriving DecidableEq, Repr

/-- The state the program works on: the global `cfg`, the file
`safePath("config.json")` (`none` when it does not exist), the data of every
`os.WriteFile` call made on that file, oldest first, and the number of
`go issueAll()` statements executed by the console. -/
structure World where
  cfg : Config
  configJson : Option GoString
  writes : List GoString
  issueRuns : Nat
deriving DecidableEq, Repr

/-- The fields of `*http.Request` the program reads: `r.Method`,
`r.Header.Get("Authorization")` (empty when the header is absent) and the bytes
`io.ReadAll(r.Body)` returns. -/
structure Request where
  Method : GoString
  Authorization : GoString
  Body : GoString
deriving DecidableEq, Repr

/-- The state of an `http.ResponseWriter`: the header map, the status code (`0`
until `WriteHeader` or the first `Write`), and the body sent so far.  Header
names are kept as the source writes them. -/
structure ResponseWriter where
  header : List (GoString × GoString)
  status : Nat
  body : GoString
deriving DecidableEq, Repr

/-- The writer a handler receives from the server. -/
def ResponseWriter.new : ResponseWriter := { header := [], status := 0, body := [] }

/-- `w.Header().Set(k, v)`. -/
def ResponseWriter.Set (w : ResponseWriter) (k v : GoString) : ResponseWriter :=
  { w with header := w.header.filter (fun e => e.1 ≠ k) ++ [(k, v)] }

/-- `w.WriteHeader(code)`: the first call fixes the status. -/
def ResponseWriter.WriteHeader (w : ResponseWriter) (code : Nat) : ResponseWriter :=
  if w.status = 0 then { w with status := code } else w

/-- `w.Write(b)` on the writer the server made for the request `r`: status 200 is
sent if no status was sent; the bytes are appended to the body, except for a
HEAD request, whose body writes the server discards. -/
def ResponseWriter.Write (w : ResponseWriter) (r : Request) (b : GoString) : ResponseWriter :=
  if r.Method = lit "HEAD" then w.WriteHeader 200
  else { (w.WriteHeader 200) with body := (w.WriteHeader 200).body ++ b }

/-- The type `http.HandlerFunc`, with the state it acts on made explicit. -/
abbrev HandlerFunc := ResponseWriter → Request → World → World × ResponseWriter

/-- Library functions the program calls and does not define.
`Unmarshal b v` is `json.Unmarshal(b, &v)`: the value left in `v` and the error
(`none` for `nil`).  `Encode v` is what `json.NewEncoder(w).Encode(v)` writes.
`ServeFile w r` is `http.ServeFile(w, r, safePath("web/index.html"))`. -/
structure Lib where
  Unmarshal : GoString → Config → Config × Option GoString
  Encode : Config → GoString
  ServeFile : ResponseWriter → Request → ResponseWriter

/-! ## Config store -/

/-- The call `os.WriteFile(safePath("config.json"), data, 0644)`. -/
def WriteFile (res : WriteResult) (data : GoString) (s : World) : World × Option GoString :=
  match res with
  | WriteResult.ok =>
    ({ s with configJson := some data, writes := s.writes ++ [data] }, none)
  | WriteResult.failed err left =>
    ({ s with configJson := left, writes := s.writes ++ [data] }, some err)

/-- `loadConfig`: the file is read (no bytes when it cannot be) and decoded into
`cfg` itself; the error is dropped. -/
def loadConfig (lib : Lib) (s : World) : World :=
  let b := s.configJson.getD []
  { s with cfg := (lib.Unmarshal b s.cfg).1 }

/-- `saveConfig`: decodes into a fresh `tmp`; on error returns it; otherwise
assigns `cfg = tmp` and returns the result of writing `b` to `config.json`. -/
def saveConfig (lib : Lib) (res : WriteResult) (b : GoString) (s : World) :
    World × Option GoString :=
  match (lib.Unmarshal b Config.zero).2 with
  | some err => (s, some err)
  | none => WriteFile res b { s with cfg := (lib.Unmarshal b Config.zero).1 }

/-! ## Control surface -/

/-- `auth`: the wrapper put around every registered handler. -/
def auth (h : HandlerFunc) : HandlerFunc := fun w r s =>
  if !s.cfg.WebEnable then (s, w.WriteHeader 403)
  else
    let raw := r.Authorization
    if raw = [] then
      (s, ((w.Set (lit "WWW-Authenticate") (lit "Basic realm=\"domain-cert\"")).WriteHeader
        401).Write r (lit "需要登录"))
    else
      let d := (b64decode (TrimPrefix raw (lit "Basic "))).1
      let p := SplitN d 58 2
      if p.length ≠ 2 ∨ p.getD 0 [] ≠ s.cfg.WebUser ∨ p.getD 1 [] ≠ s.cfg.WebPass then
        (s, (w.WriteHeader 403).Write r (lit "账号或密码错误"))
      else h w r s

/-- The handler registered on `/`. -/
def indexHandler (lib : Lib) : HandlerFunc := fun w r s => (s, lib.ServeFile w r)

/-- The handler registered on `/api/config`. -/
def configHandler (lib : Lib) (res : WriteResult) : HandlerFunc := fun w r s =>
  if r.Method = lit "GET" then (s, w.Write r (lib.Encode s.cfg))
  else
    let b := r.Body
    match saveConfig lib res b s with
    | (s1, some err) => (s1, w.Write r (lit "JSON错误: " ++ err))
    | (s1, none) => (s1, w.Write r (lit "ok"))

/-- The handler registered on `/api/issue`: `go issueAll()` then `started`. -/
def issueHandler : HandlerFunc := fun w r s =>
  ({ s with issueRuns := s.issueRuns + 1 }, w.Write r (lit "started"))

/-- The three patterns registered on the mux. -/
inductive Pattern where
  | root
  | apiConfig
  | apiIssue
deriving DecidableEq, Repr

/-- The handler the mux holds for a pattern: each one is wrapped in `auth`. -/
def route (lib : Lib) (res : WriteResult) : Pattern → HandlerFunc
  | Pattern.root => auth (indexHandler lib)
  | Pattern.apiConfig => auth (configHandler lib res)
  | Pattern.apiIssue => auth issueHandler

/-- One request served: the pattern the mux matched, the outcome a write to
`config.json` would have during it, and the request. -/
structure Served where
  pattern : Pattern
  res : WriteResult
  req : Request

/-- The server handling requests one after the other; the result is the final
state and the responses, in order. -/
def serveAll (lib : Lib) : List Served → World → World × List ResponseWriter
  | [], s => (s, [])
  | x :: xs, s =>
    let r1 := route lib x.res x.pattern ResponseWriter.new x.req s
    let r2 := serveAll lib xs r1.1
    (r2.1, r1.2 :: r2.2)

/-! ## Issuance runner -/

/-- What `issueAll` does to the outside, in order.  `log` is a `log.Printf` or
`log.Println` call with its format string and its string arguments (the elapsed
seconds of a step are not recorded); `exec` is a call of `run`; `mkdirAll` is
`os.MkdirAll`. -/
inductive Event where
  | log (format : String) (args : List GoString)
  | exec (cmd : GoString) (args : List GoString)
  | mkdirAll (path : GoString)
deriving DecidableEq, Repr

/-- The error `c.Run()` returns (`none` for `nil`), as a function of everything
the run has done so far, the command just started included. -/
abbrev Oracle := List Event → Option GoString

/-- `run`: starts the command and returns its error. -/
def run (o : Oracle) (cmd : GoString) (args : List GoString) (t : List Event) :
    List Event × Option GoString :=
  (t ++ [Event.exec cmd args], o (t ++ [Event.exec cmd args]))

/-- `logStep`: a start line, the action, then a failure or a success line. -/
def logStep (name : GoString) (fn : List Event → List Event × Option GoString)
    (t : List Event) : List Event :=
  let r := fn (t ++ [Event.log "[STEP] %s 开始\n" [name]])
  match r.2 with
  | some err => r.1 ++ [Event.log "[STEP] %s 失败 (%.2fs): %v\n" [name, err]]
  | none => r.1 ++ [Event.log "[STEP] %s 成功 (%.2fs)\n" [name]]

/-- The body of the loop over `cfg.Domains` in `issueAll`; `acme` is
`filepath.Join(os.Getenv("HOME"), ".acme.sh/acme.sh")`. -/
def issueDomain (o : Oracle) (acme : GoString) (cfg : Config) (t : List Event)
    (d : Domain) : List Event :=
  let t1 := t ++ [Event.log "[DOMAIN] %s 开始\n" [d.Domain]]
  let t2 := logStep (lit "申请证书 " ++ d.Domain) (fun t =>
    run o acme [lit "--issue", lit "--server", lit "letsencrypt",
      lit "--days", Itoa cfg.RenewDays, lit "-d", d.Domain, lit "-w", d.Webroot] t) t1
  let t3 := logStep (lit "安装证书 " ++ d.Domain) (fun t =>
    run o acme [lit "--install-cert", lit "-d", d.Domain,
      lit "--key-file", d.InstallPath ++ lit "/privkey.pem",
      lit "--fullchain-file", d.InstallPath ++ lit "/fullchain.pem"]
      (t ++ [Event.mkdirAll d.InstallPath])) t2
  t3 ++ [Event.log "[DOMAIN] %s 完成\n" [d.Domain]]

/-- `issueAll`, run on the configuration `cfg`, continuing the event list `t`. -/
def issueAll (o : Oracle) (acme : GoString) (cfg : Config) (t : List Event) : List Event :=
  let t1 := t ++ [Event.log "[TASK] 证书任务开始" []]
  let t2 := logStep (lit "安装 acme.sh") (fun t =>
    run o (lit "sh") [lit "-c", lit "curl https://get.acme.sh | sh -s email=" ++ cfg.Email] t) t1
  let t3 := logStep (lit "设置默认 CA") (fun t =>
    run o acme [lit "--set-default-ca", lit "--server", lit "letsencrypt"] t) t2
  let t4 := cfg.Domains.foldl (issueDomain o acme cfg) t3
  t4 ++ [Event.log "[TASK] 证书任务结束" []]

/-- The external commands of an event list, in order: command and arguments. -/
def commands (t : List Event) : List (GoString × List GoString) :=
  t.filterMap (fun e => match e with
    | Event.exec cmd args => some (cmd, args)
    | _ => none)

/-- The log lines of an event list, in order: format and arguments. -/
def logs (t : List Event) : List (String × List GoString) :=
  t.filterMap (fun e => match e with
    | Event.log format args => some (format, args)
    | _ => none)

/-- The two log lines of one step: the start line, then the success line when
the action returned `nil` and the failure line with the error otherwise. -/
def stepRecords (name : GoString) (result : Option GoString) :
    List (String × List GoString) :=
  [("[STEP] %s 开始\n", [name]),
   match result with
   | some err => ("[STEP] %s 失败 (%.2fs): %v\n", [name, err])
   | none => ("[STEP] %s 成功 (%.2fs)\n", [name])]

/-- The line `logStep` prints after the action. -/
def stepEnd (name : GoString) (result : Option GoString) : Event :=
  match result with
  | some err => Event.log "[STEP] %s 失败 (%.2fs): %v\n" [name, err]
  | none => Event.log "[STEP] %s 成功 (%.2fs)\n" [name]

/-- The commands of an event list whose first argument is `--issue`. -/
def issueInvocations (t : List Event) : List (GoString × List GoString) :=
  (commands t).filter (fun c => c.2.head? = some (lit "--issue"))

/-! ## Concrete instances -/

/-- A request body that names the console switch and one complete domain and
nothing else:
`{"web_enable":true,"domains":[{"domain":"b.test","webroot":"/var/www/b","install_path":"/etc/ssl/b"}]}`. -/
def oneDomainBody : GoString :=
  lit ("\x7b\"web_enable\":true,\"domains\":[\x7b\"domain\":\"b.test\"," ++
    "\"webroot\":\"/var/www/b\",\"install_path\":\"/etc/ssl/b\"\x7d]\x7d")

/-- A decoder for the concrete instances below.  It gives what `json.Unmarshal`
gives on four inputs.  The empty input is a syntax error and leaves `v` alone.
The document `{}` decodes and leaves `v` alone.  The document
`{"renew_days":"60"}` holds a string where the integer field wants a number: a
type error, and `v` is left alone.  The document `oneDomainBody` decodes, sets
`WebEnable`, replaces `Domains` by the one listed domain and leaves the fields
it does not name alone.  No other input is used, and each of them is answered
like the empty one. -/
def sampleUnmarshal (b : GoString) (v : Config) : Config × Option GoString :=
  if b = lit "\x7b\x7d" then (v, none)
  else if b = lit "\x7b\"renew_days\":\"60\"\x7d" then
    (v, some (lit
      "json: cannot unmarshal string into Go struct field Config.renew_days of type int"))
  else if b = oneDomainBody then
    ({ v with WebEnable := true,
              Domains := [{ Domain := lit "b.test", Webroot := lit "/var/www/b",
                            InstallPath := lit "/etc/ssl/b" }] }, none)
  else (v, some (lit "unexpected end of JSON input"))

/-- The library instance of the concrete instances: `sampleUnmarshal`, an encoder
that prints only the e-mail field, and a file server that sends a fixed page. -/
def sampleLib : Lib :=
  { Unmarshal := sampleUnmarshal
    Encode := fun v => lit "\x7b\"email\":\"" ++ v.Email ++ lit "\"\x7d\n"
    ServeFile := fun w r => w.Write r (lit "<!DOCTYPE html>") }

/-- The configuration `initFiles` writes on first run. -/
def defaultConfig : Config :=
  { Email := lit "example@qq.com", RenewDays := 60, WebEnable := true,
    WebUser := lit "admin", WebPass := lit "123456",
    Domains := [{ Domain := lit "example.com", Webroot := lit "/www/wwwroot/example.com",
                  InstallPath := lit "/www/server/panel/vhost/cert/example.com" }] }

/-- A state with the default configuration loaded and `config.json` holding `{}`. -/
def sampleWorld : World :=
  { cfg := defaultConfig, configJson := some (lit "\x7b\x7d"), writes := [], issueRuns := 0 }

/-- The state `sampleWorld` with the console switched off. -/
def disabledWorld : World :=
  { sampleWorld with cfg := { defaultConfig with WebEnable := false } }

/-- The configuration of the end-to-end example of the specification: two
domains and `renew_days` 90. -/
def exampleConfig : Config :=
  { Email := lit "ops@a.test", RenewDays := 90, WebEnable := true,
    WebUser := lit "admin", WebPass := lit "123456",
    Domains := [{ Domain := lit "a.test", Webroot := lit "/var/www/a",
                  InstallPath := lit "/etc/ssl/a" },
                { Domain := lit "b.test", Webroot := lit "/var/www/b",
                  InstallPath := lit "/etc/ssl/b" }] }

/-! ## Theorems: base64 -/

theorem decodeMap_encodeChar_fin : ∀ v : Fin 64, decodeMap (encodeChar v.val) = v.val := by
  decide

theorem decodeMap_encodeChar (v : Nat) (h : v < 64) : decodeMap (encodeChar v) = v :=
  decodeMap_encodeChar_fin ⟨v, h⟩

theorem decodeMap_padChar : decodeMap padChar = 255 := by decide

theorem quantumBytes_four (a b c : Byte) :
    quantumBytes [(a.val * 65536 + b.val * 256 + c.val) / 262144 % 64,
      (a.val * 65536 + b.val * 256 + c.val) / 4096 % 64,
      (a.val * 65536 + b.val * 256 + c.val) / 64 % 64,
      (a.val * 65536 + b.val * 256 + c.val) % 64] = [a, b, c] := by
  have ha := a.isLt
  have hb := b.isLt
  have hc := c.isLt
  simp only [quantumBytes, List.getD_cons_zero, List.getD_cons_succ, List.length_cons,
    List.length_nil, byte]
  simp only [List.take, List.cons.injEq, and_true]
  refine ⟨Fin.ext ?_, Fin.ext ?_, Fin.ext ?_⟩ <;> simp only [] <;> omega

theorem quantumBytes_two (a : Byte) :
    quantumBytes [a.val * 65536 / 262144 % 64, a.val * 65536 / 4096 % 64] = [a] := by
  have ha := a.isLt
  simp only [quantumBytes, List.getD_cons_zero, List.getD_cons_succ, List.length_cons,
    List.length_nil, byte, List.getD_nil]
  simp only [List.take, List.cons.injEq, and_true]
  refine Fin.ext ?_
  simp only []
  omega

theorem quantumBytes_three (a b : Byte) :
    quantumBytes [(a.val * 65536 + b.val * 256) / 262144 % 64,
      (a.val * 65536 + b.val * 256) / 4096 % 64,
      (a.val * 65536 + b.val * 256) / 64 % 64] = [a, b] := by
  have ha := a.isLt
  have hb := b.isLt
  simp only [quantumBytes, List.getD_cons_zero, List.getD_cons_succ, List.length_cons,
    List.length_nil, byte, List.getD_nil]
  simp only [List.take, List.cons.injEq, and_true]
  refine ⟨Fin.ext ?_, Fin.ext ?_⟩ <;> simp only [] <;> omega

theorem decodeFrom_sextet (dbuf : List Nat) (v : Nat) (cs : GoString) (hv : v < 64)
    (hd : dbuf.length ≠ 3) :
    decodeFrom dbuf (encodeChar v :: cs) = decodeFrom (dbuf ++ [v]) cs := by
  have h : decodeMap (encodeChar v) ≠ 255 := by
    rw [decodeMap_encodeChar v hv]; omega
  rw [decodeFrom, if_pos h, if_neg hd, decodeMap_encodeChar v hv]

theorem decodeFrom_fourth (dbuf : List Nat) (v : Nat) (cs : GoString) (hv : v < 64)
    (hd : dbuf.length = 3) :
    decodeFrom dbuf (encodeChar v :: cs)
      = (quantumBytes (dbuf ++ [v]) ++ (decodeFrom [] cs).1, (decodeFrom [] cs).2) := by
  have h : decodeMap (encodeChar v) ≠ 255 := by
    rw [decodeMap_encodeChar v hv]; omega
  rw [decodeFrom, if_pos h, if_pos hd, decodeMap_encodeChar v hv]

/-- Decoding what `EncodeToString` produced gives the bytes back, with no error. -/
theorem b64decode_b64encode (bs : GoString) : b64decode (b64encode bs) = (bs, false) := by
  unfold b64decode
  induction bs using b64encode.induct with
  | case1 => rfl
  | case2 a =>
    simp only [b64encode]
    rw [decodeFrom_sextet _ _ _ (Nat.mod_lt _ (by decide)) (by simp),
      decodeFrom_sextet _ _ _ (Nat.mod_lt _ (by decide)) (by simp)]
    simp only [List.nil_append, List.cons_append]
    rw [decodeFrom, if_neg (by rw [decodeMap_padChar]; exact fun h => h rfl),
      if_neg (by decide), if_neg (by decide), if_neg (by simp), if_pos (by rfl)]
    simp only [skipNewlines, padChar]
    rw [if_neg (by decide)]
    simp only [ne_eq, not_true_eq_false, if_false]
    rw [quantumBytes_two]
    rfl
  | case3 a b =>
    simp only [b64encode]
    rw [decodeFrom_sextet _ _ _ (Nat.mod_lt _ (by decide)) (by simp),
      decodeFrom_sextet _ _ _ (Nat.mod_lt _ (by decide)) (by simp),
      decodeFrom_sextet _ _ _ (Nat.mod_lt _ (by decide)) (by simp)]
    simp only [List.nil_append, List.cons_append]
    rw [decodeFrom, if_neg (by rw [decodeMap_padChar]; exact fun h => h rfl),
      if_neg (by decide), if_neg (by decide), if_neg (by simp), if_neg (by simp)]
    rw [quantumBytes_three]
    rfl
  | case4 a b c rest ih =>
    simp only [b64encode]
    rw [decodeFrom_sextet _ _ _ (Nat.mod_lt _ (by decide)) (by simp),
      decodeFrom_sextet _ _ _ (Nat.mod_lt _ (by decide)) (by simp),
      decodeFrom_sextet _ _ _ (Nat.mod_lt _ (by decide)) (by simp),
      decodeFrom_fourth _ _ _ (Nat.mod_lt _ (by decide)) (by rfl)]
    simp only [List.nil_append, List.cons_append]
    rw [quantumBytes_four, ih]
    rfl

/-! ## Theorems: strings -/

theorem TrimPrefix_append (pre x : GoString) : TrimPrefix (pre ++ x) pre = x := by
  have h : pre.isPrefixOf (pre ++ x) = true := by
    rw [List.isPrefixOf_iff_prefix]
    exact List.prefix_append pre x
  rw [TrimPrefix, if_pos h, List.drop_left]

theorem cut_append (sep : Byte) (u p : GoString) (h : sep ∉ u) :
    cut sep (u ++ sep :: p) = some (u, p) := by
  induction u with
  | nil => simp [cut]
  | cons c cs ih =>
    have hc : c ≠ sep := fun e => h (e ▸ List.mem_cons_self c cs)
    have hcs : sep ∉ cs := fun e => h (List.mem_cons_of_mem c e)
    simp [cut, hc, ih hcs]

/-- What `cut` returns is the split at the first occurrence of `sep`. -/
theorem cut_first (sep : Byte) (s a rest : GoString) (h : cut sep s = some (a, rest)) :
    s = a ++ sep :: rest ∧ sep ∉ a := by
  induction s generalizing a with
  | nil => simp [cut] at h
  | cons c cs ih =>
    rw [cut] at h
    by_cases hc : c = sep
    · rw [if_pos hc] at h
      simp only [Option.some.injEq, Prod.mk.injEq] at h
      obtain ⟨rfl, rfl⟩ := h
      simp [hc]
    · rw [if_neg hc] at h
      cases hcut : cut sep cs with
      | none => simp [hcut] at h
      | some q =>
        obtain ⟨a1, r1⟩ := q
        simp only [hcut, Option.map_some', Option.some.injEq, Prod.mk.injEq] at h
        obtain ⟨rfl, rfl⟩ := h
        obtain ⟨h1, h2⟩ := ih a1 hcut
        refine ⟨by rw [h1]; rfl, ?_⟩
        intro hm
        rcases List.mem_cons.mp hm with e | e
        · exact hc e.symm
        · exact h2 e

theorem SplitN_two (u p : GoString) (h : (58 : Byte) ∉ u) :
    SplitN (u ++ 58 :: p) 58 2 = [u, p] := by
  simp [SplitN, cut_append 58 u p h]

theorem lit_Basic_ne_nil (x : GoString) : lit "Basic " ++ x ≠ [] := by
  have h : lit "Basic " = [66, 97, 115, 105, 99, 32] := by decide
  rw [h]
  simp

/-- The header of a client that sends user `u` and password `p`. -/
theorem auth_header (h : HandlerFunc) (w : ResponseWriter) (r : Request) (s : World)
    (u p : GoString) (he : s.cfg.WebEnable = true) (hu : (58 : Byte) ∉ u)
    (hr : r.Authorization = lit "Basic " ++ b64encode (u ++ 58 :: p)) :
    auth h w r s =
      if u = s.cfg.WebUser ∧ p = s.cfg.WebPass then h w r s
      else (s, (w.WriteHeader 403).Write r (lit "账号或密码错误")) := by
  unfold auth
  simp only [he, hr, Bool.not_true, Bool.false_eq_true, if_false, lit_Basic_ne_nil,
    TrimPrefix_append, b64decode_b64encode, SplitN_two u p hu]
  by_cases hc : u = s.cfg.WebUser ∧ p = s.cfg.WebPass
  · obtain ⟨h1, h2⟩ := hc
    simp [h1, h2]
  · rw [if_neg hc]
    have : ¬ (u = s.cfg.WebUser) ∨ ¬ (p = s.cfg.WebPass) := by
      by_cases h1 : u = s.cfg.WebUser
      · exact Or.inr (fun h2 => hc ⟨h1, h2⟩)
      · exact Or.inl h1
    simp [this]

/-! ## Theorems: console authentication -/

/-- C3. With the console enabled and for every wrapped handler `h`: a request
without an `Authorization` value is answered 401 with the `WWW-Authenticate`
Basic challenge, and a request carrying `Basic ` and the base64 of `u:p`, with
`u` free of colons and `(u, p)` not the configured pair, is answered 403.  The
body is the refusal text, or empty for a HEAD request.  In both cases the
result does not depend on `h` and the state (configuration, file, issuance
runs) is the one before the request. -/
theorem auth_missing_or_wrong_credentials (h : HandlerFunc) (r : Request) (s : World)
    (he : s.cfg.WebEnable = true) :
    (r.Authorization = [] →
      auth h ResponseWriter.new r s =
        (s, { header := [(lit "WWW-Authenticate", lit "Basic realm=\"domain-cert\"")],
              status := 401,
              body := if r.Method = lit "HEAD" then [] else lit "需要登录" })) ∧
    (∀ u p : GoString, (58 : Byte) ∉ u → (u, p) ≠ (s.cfg.WebUser, s.cfg.WebPass) →
      r.Authorization = lit "Basic " ++ b64encode (u ++ 58 :: p) →
      auth h ResponseWriter.new r s =
        (s, { header := [], status := 403,
              body := if r.Method = lit "HEAD" then [] else lit "账号或密码错误" })) := by
  constructor
  · intro hr
    by_cases hh : r.Method = lit "HEAD" <;>
      simp [auth, he, hr, hh, ResponseWriter.new, ResponseWriter.Set,
        ResponseWriter.WriteHeader, ResponseWriter.Write]
  · intro u p hu hne hr
    rw [auth_header h _ r s u p he hu hr]
    have hc : ¬ (u = s.cfg.WebUser ∧ p = s.cfg.WebPass) := by
      rintro ⟨h1, h2⟩
      exact hne (by rw [h1, h2])
    rw [if_neg hc]
    by_cases hh : r.Method = lit "HEAD" <;>
      simp [hh, ResponseWriter.new, ResponseWriter.WriteHeader, ResponseWriter.Write]

/-- C3, at the default configuration: no header, and `admin:wrong`, sent to the
issuance route. -/
theorem auth_missing_or_wrong_credentials_witness :
    sampleWorld.cfg.WebEnable = true ∧
    auth issueHandler ResponseWriter.new
        { Method := lit "POST", Authorization := [], Body := [] } sampleWorld =
      (sampleWorld,
        { header := [(lit "WWW-Authenticate", lit "Basic realm=\"domain-cert\"")],
          status := 401, body := lit "需要登录" }) ∧
    (58 : Byte) ∉ lit "admin" ∧
    (lit "admin", lit "wrong") ≠ (sampleWorld.cfg.WebUser, sampleWorld.cfg.WebPass) ∧
    lit "Basic YWRtaW46d3Jvbmc=" = lit "Basic " ++ b64encode (lit "admin" ++ 58 :: lit "wrong") ∧
    auth issueHandler ResponseWriter.new
        { Method := lit "POST", Authorization := lit "Basic YWRtaW46d3Jvbmc=", Body := [] }
        sampleWorld =
      (sampleWorld, { header := [], status := 403, body := lit "账号或密码错误" }) :=
  ⟨by decide,
   ((auth_missing_or_wrong_credentials issueHandler
      { Method := lit "POST", Authorization := [], Body := [] } sampleWorld (by decide)).1
      rfl).trans (by decide),
   by decide, by decide, by decide,
   ((auth_missing_or_wrong_credentials issueHandler
      { Method := lit "POST", Authorization := lit "Basic YWRtaW46d3Jvbmc=", Body := [] }
      sampleWorld (by decide)).2 (lit "admin") (lit "wrong") (by decide) (by decide)
      (by decide)).trans (by decide)⟩

/-- C4. With the console disabled, `auth` answers 403 whatever the wrapped
handler, the method and the `Authorization` value are, and leaves the state as
it was; hence any sequence of requests to the three routes leaves the
configuration, the file and the count of issuance runs unchanged, every
response being the bare 403. -/
theorem auth_disabled (s : World) (hd : s.cfg.WebEnable = false) :
    (∀ (h : HandlerFunc) (w : ResponseWriter) (r : Request),
      auth h w r s = (s, w.WriteHeader 403)) ∧
    (∀ (lib : Lib) (xs : List Served),
      (serveAll lib xs s).1 = s ∧
      ∀ resp ∈ (serveAll lib xs s).2, resp = { header := [], status := 403, body := [] }) := by
  have h1 : ∀ (h : HandlerFunc) (w : ResponseWriter) (r : Request),
      auth h w r s = (s, w.WriteHeader 403) := by
    intro h w r
    simp [auth, hd]
  refine ⟨h1, ?_⟩
  intro lib xs
  induction xs with
  | nil => simp [serveAll]
  | cons x xs ih =>
    have hr : route lib x.res x.pattern ResponseWriter.new x.req s
        = (s, { header := [], status := 403, body := [] }) := by
      cases hp : x.pattern <;> simp [route, h1, ResponseWriter.new, ResponseWriter.WriteHeader]
    simp only [serveAll, hr, List.mem_cons]
    refine ⟨ih.1, ?_⟩
    rintro resp (rfl | hm)
    · rfl
    · exact ih.2 resp hm

/-- C4, at the default configuration with the console switched off: the right
credentials sent to each of the three routes. -/
theorem auth_disabled_witness :
    disabledWorld.cfg.WebEnable = false ∧
    auth issueHandler ResponseWriter.new
        { Method := lit "POST", Authorization := lit "Basic YWRtaW46MTIzNDU2", Body := [] }
        disabledWorld = (disabledWorld, ResponseWriter.new.WriteHeader 403) ∧
    (serveAll sampleLib
      [{ pattern := Pattern.root, res := WriteResult.ok,
         req := { Method := lit "GET", Authorization := lit "Basic YWRtaW46MTIzNDU2",
                  Body := [] } },
       { pattern := Pattern.apiConfig, res := WriteResult.ok,
         req := { Method := lit "POST", Authorization := lit "Basic YWRtaW46MTIzNDU2",
                  Body := lit "\x7b\x7d" } },
       { pattern := Pattern.apiIssue, res := WriteResult.ok,
         req := { Method := lit "POST", Authorization := lit "Basic YWRtaW46MTIzNDU2",
                  Body := [] } }] disabledWorld).1 = disabledWorld :=
  ⟨by decide,
   (auth_disabled disabledWorld (by decide)).1 issueHandler ResponseWriter.new
      { Method := lit "POST", Authorization := lit "Basic YWRtaW46MTIzNDU2", Body := [] },
   ((auth_disabled disabledWorld (by decide)).2 sampleLib _).1⟩

/-- C5, as stated, fails: with user name `a:b` and password `c` the request that
carries `Basic ` and the base64 of `a:b:c` is answered 403 and the handler is not
run (no issuance run is started). -/
theorem auth_colon_in_user_rejected :
    lit "Basic YTpiOmM=" = lit "Basic " ++ b64encode (lit "a:b" ++ 58 :: lit "c") ∧
    auth issueHandler ResponseWriter.new
        { Method := lit "POST", Authorization := lit "Basic YTpiOmM=", Body := [] }
        { sampleWorld with
            cfg := { defaultConfig with WebUser := lit "a:b", WebPass := lit "c" } } =
      ({ sampleWorld with
            cfg := { defaultConfig with WebUser := lit "a:b", WebPass := lit "c" } },
        { header := [], status := 403, body := lit "账号或密码错误" }) := by
  decide

/-- C5, amended. With the console enabled, for every configured user name without
a colon and every configured password, the request that carries `Basic ` and the
standard base64 encoding of `WebUser:WebPass` is passed to the wrapped handler:
the result of `auth h` is the result of `h`. -/
theorem auth_correct_credentials (h : HandlerFunc) (w : ResponseWriter) (r : Request)
    (s : World) (he : s.cfg.WebEnable = true) (hu : (58 : Byte) ∉ s.cfg.WebUser)
    (hr : r.Authorization = lit "Basic " ++ b64encode (s.cfg.WebUser ++ 58 :: s.cfg.WebPass)) :
    auth h w r s = h w r s := by
  rw [auth_header h w r s _ _ he hu hr, if_pos ⟨rfl, rfl⟩]

/-- C5 amended, at the default configuration (`admin`, `123456`). -/
theorem auth_correct_credentials_witness :
    sampleWorld.cfg.WebEnable = true ∧ (58 : Byte) ∉ sampleWorld.cfg.WebUser ∧
    auth issueHandler ResponseWriter.new
        { Method := lit "POST", Authorization := lit "Basic YWRtaW46MTIzNDU2", Body := [] }
        sampleWorld =
      issueHandler ResponseWriter.new
        { Method := lit "POST", Authorization := lit "Basic YWRtaW46MTIzNDU2", Body := [] }
        sampleWorld :=
  ⟨by decide, by decide,
   auth_correct_credentials issueHandler ResponseWriter.new
     { Method := lit "POST", Authorization := lit "Basic YWRtaW46MTIzNDU2", Body := [] }
     sampleWorld (by decide) (by decide) (by decide)⟩

/-! ## Theorems: config store -/

theorem lit_JSON_error_ne_ok (e : GoString) : lit "JSON错误: " ++ e ≠ lit "ok" := by
  have h1 : lit "JSON错误: " = 74 :: (lit "JSON错误: ").tail := by decide
  have h2 : lit "ok" = [111, 107] := by decide
  rw [h1, h2]
  intro h
  have h3 := (List.cons.inj h).1
  exact absurd h3 (by decide)

theorem saveConfig_error (lib : Lib) (res : WriteResult) (b err : GoString) (s : World)
    (hf : (lib.Unmarshal b Config.zero).2 = some err) :
    saveConfig lib res b s = (s, some err) := by
  simp [saveConfig, hf]

theorem saveConfig_decoded (lib : Lib) (res : WriteResult) (b : GoString) (s : World)
    (hok : (lib.Unmarshal b Config.zero).2 = none) :
    saveConfig lib res b s =
      WriteFile res b { s with cfg := (lib.Unmarshal b Config.zero).1 } := by
  simp [saveConfig, hok]

theorem Write_new_body (r : Request) (x : GoString) :
    (ResponseWriter.new.Write r x).body = if r.Method = lit "HEAD" then [] else x := by
  by_cases hh : r.Method = lit "HEAD" <;>
    simp [hh, ResponseWriter.Write, ResponseWriter.WriteHeader, ResponseWriter.new]

theorem Write_body_ne_ok (w : ResponseWriter) (r : Request) (x : GoString)
    (hw : w.body = []) (hx : x ≠ lit "ok") : (w.Write r x).body ≠ lit "ok" := by
  have hnil : ([] : GoString) ≠ lit "ok" := by decide
  have hb : ∀ c, (w.WriteHeader c).body = [] := by
    intro c
    unfold ResponseWriter.WriteHeader
    split <;> simp [hw]
  unfold ResponseWriter.Write
  split
  · rw [hb]; exact hnil
  · simp only [hb, List.nil_append]
    exact hx

/-- Every answer of `auth h`: the answer of `h`, or one of the three refusals,
which leave the state alone. -/
theorem auth_cases (h : HandlerFunc) (w : ResponseWriter) (r : Request) (s : World) :
    auth h w r s = h w r s ∨
    auth h w r s = (s, w.WriteHeader 403) ∨
    auth h w r s = (s, ((w.Set (lit "WWW-Authenticate")
      (lit "Basic realm=\"domain-cert\"")).WriteHeader 401).Write r (lit "需要登录")) ∨
    auth h w r s = (s, (w.WriteHeader 403).Write r (lit "账号或密码错误")) := by
  unfold auth
  split
  · exact Or.inr (Or.inl rfl)
  · simp only []
    split
    · exact Or.inr (Or.inr (Or.inl rfl))
    · split
      · exact Or.inr (Or.inr (Or.inr rfl))
      · exact Or.inl rfl

/-- C1. When the body does not decode, `saveConfig` returns the decoder's error
and the state is the one before the call: same configuration, same
`config.json`, no write issued, whatever the write would have done.  The
`/api/config` handler, given a non-GET request with that body, leaves the state
alone and answers the error text (no body for a HEAD request), and the answer of
the registered (wrapped) handler is not `ok` either, whatever the
`Authorization` value is. -/
theorem saveConfig_parse_failure (lib : Lib) (res : WriteResult) (b : GoString) (s : World)
    (hf : (lib.Unmarshal b Config.zero).2 ≠ none) :
    (saveConfig lib res b s).2 ≠ none ∧
    (saveConfig lib res b s).2 = (lib.Unmarshal b Config.zero).2 ∧
    (saveConfig lib res b s).1 = s ∧
    ∀ r : Request, r.Method ≠ lit "GET" → r.Body = b →
      (configHandler lib res ResponseWriter.new r s).1 = s ∧
      (configHandler lib res ResponseWriter.new r s).2.body ≠ lit "ok" ∧
      (route lib res Pattern.apiConfig ResponseWriter.new r s).1 = s ∧
      (route lib res Pattern.apiConfig ResponseWriter.new r s).2.body ≠ lit "ok" := by
  obtain ⟨err, he⟩ := Option.ne_none_iff_exists'.mp hf
  have hs := saveConfig_error lib res b err s he
  refine ⟨by rw [hs]; simp, by rw [hs, he], by rw [hs], ?_⟩
  intro r hm hb
  have hc : configHandler lib res ResponseWriter.new r s
      = (s, ResponseWriter.new.Write r (lit "JSON错误: " ++ err)) := by
    simp [configHandler, hm, hb, hs]
  have hbody : (ResponseWriter.new.Write r (lit "JSON错误: " ++ err)).body ≠ lit "ok" :=
    Write_body_ne_ok _ r _ rfl (lit_JSON_error_ne_ok err)
  have h401 : lit "需要登录" ≠ lit "ok" := by decide
  have h403 : lit "账号或密码错误" ≠ lit "ok" := by decide
  have hnil : ([] : GoString) ≠ lit "ok" := by decide
  refine ⟨by rw [hc], by rw [hc]; exact hbody, ?_⟩
  rcases auth_cases (configHandler lib res) ResponseWriter.new r s with h | h | h | h
  · simp only [route, h]
    exact ⟨by rw [hc], by rw [hc]; exact hbody⟩
  · simp only [route, h]
    exact ⟨trivial, by simpa [ResponseWriter.WriteHeader, ResponseWriter.new] using hnil⟩
  · simp only [route, h]
    exact ⟨trivial, Write_body_ne_ok _ r _
      (by simp [ResponseWriter.WriteHeader, ResponseWriter.Set, ResponseWriter.new]) h401⟩
  · simp only [route, h]
    exact ⟨trivial, Write_body_ne_ok _ r _
      (by simp [ResponseWriter.WriteHeader, ResponseWriter.new]) h403⟩

/-- C1, at two bodies posted with the right credentials over the default
configuration: the empty body (malformed JSON) and `{"renew_days":"60"}` (a field
of the wrong JSON type). -/
theorem saveConfig_parse_failure_witness :
    (sampleLib.Unmarshal [] Config.zero).2 ≠ none ∧
    (saveConfig sampleLib WriteResult.ok [] sampleWorld).2
      = some (lit "unexpected end of JSON input") ∧
    (saveConfig sampleLib WriteResult.ok [] sampleWorld).1 = sampleWorld ∧
    (route sampleLib WriteResult.ok Pattern.apiConfig ResponseWriter.new
      { Method := lit "POST", Authorization := lit "Basic YWRtaW46MTIzNDU2", Body := [] }
      sampleWorld).2.body ≠ lit "ok" ∧
    (sampleLib.Unmarshal (lit "\x7b\"renew_days\":\"60\"\x7d") Config.zero).2 ≠ none ∧
    (saveConfig sampleLib WriteResult.ok (lit "\x7b\"renew_days\":\"60\"\x7d") sampleWorld).1
      = sampleWorld :=
  ⟨by decide,
   ((saveConfig_parse_failure sampleLib WriteResult.ok [] sampleWorld (by decide)).2.1).trans
     (by decide),
   (saveConfig_parse_failure sampleLib WriteResult.ok [] sampleWorld (by decide)).2.2.1,
   ((saveConfig_parse_failure sampleLib WriteResult.ok [] sampleWorld (by decide)).2.2.2
      { Method := lit "POST", Authorization := lit "Basic YWRtaW46MTIzNDU2", Body := [] }
      (by decide) rfl).2.2.2,
   by decide,
   (saveConfig_parse_failure sampleLib WriteResult.ok (lit "\x7b\"renew_days\":\"60\"\x7d")
      sampleWorld (by decide)).2.2.1⟩

/-- C2. When the body decodes, the configuration `saveConfig` leaves in memory is
the value decoded from the body into the zero configuration, field by field,
whatever the configuration was before and whether the write succeeds or not; so
two calls from any two states leave the same configuration. -/
theorem saveConfig_replaces (lib : Lib) (res₁ res₂ : WriteResult) (b : GoString)
    (s₁ s₂ : World) (hok : (lib.Unmarshal b Config.zero).2 = none) :
    (saveConfig lib res₁ b s₁).1.cfg = (lib.Unmarshal b Config.zero).1 ∧
    (saveConfig lib res₁ b s₁).1.cfg = (saveConfig lib res₂ b s₂).1.cfg ∧
    (saveConfig lib res₁ b s₁).1.cfg.Email = (lib.Unmarshal b Config.zero).1.Email ∧
    (saveConfig lib res₁ b s₁).1.cfg.RenewDays = (lib.Unmarshal b Config.zero).1.RenewDays ∧
    (saveConfig lib res₁ b s₁).1.cfg.WebEnable = (lib.Unmarshal b Config.zero).1.WebEnable ∧
    (saveConfig lib res₁ b s₁).1.cfg.WebUser = (lib.Unmarshal b Config.zero).1.WebUser ∧
    (saveConfig lib res₁ b s₁).1.cfg.WebPass = (lib.Unmarshal b Config.zero).1.WebPass ∧
    (saveConfig lib res₁ b s₁).1.cfg.Domains = (lib.Unmarshal b Config.zero).1.Domains := by
  have h : ∀ (res : WriteResult) (s : World),
      (saveConfig lib res b s).1.cfg = (lib.Unmarshal b Config.zero).1 := by
    intro res s
    rw [saveConfig_decoded lib res b s hok]
    cases res <;> rfl
  refine ⟨h res₁ s₁, by rw [h res₁ s₁, h res₂ s₂], ?_, ?_, ?_, ?_, ?_, ?_⟩ <;> rw [h res₁ s₁]

/-- C2, at `oneDomainBody`, saved over the default configuration (one other
domain, an e-mail address) and, with a failing write, over the two-domain example
configuration: both end with the one domain of the body and with the zero value
in every field the body does not name. -/
theorem saveConfig_replaces_witness :
    (sampleLib.Unmarshal oneDomainBody Config.zero).2 = none ∧
    (saveConfig sampleLib WriteResult.ok oneDomainBody sampleWorld).1.cfg =
      { Email := [], RenewDays := 0, WebEnable := true, WebUser := [], WebPass := [],
        Domains := [{ Domain := lit "b.test", Webroot := lit "/var/www/b",
                      InstallPath := lit "/etc/ssl/b" }] } ∧
    (saveConfig sampleLib WriteResult.ok oneDomainBody sampleWorld).1.cfg =
    (saveConfig sampleLib (WriteResult.failed (lit "permission denied") none) oneDomainBody
      { sampleWorld with cfg := exampleConfig }).1.cfg :=
  ⟨by decide,
   (saveConfig_replaces sampleLib WriteResult.ok WriteResult.ok oneDomainBody sampleWorld
      sampleWorld (by decide)).1.trans (by decide),
   (saveConfig_replaces sampleLib WriteResult.ok
      (WriteResult.failed (lit "permission denied") none) oneDomainBody sampleWorld
      { sampleWorld with cfg := exampleConfig } (by decide)).2.1⟩

/-- C6, as stated, fails: the body `{}` decodes, the write of `config.json` fails,
and the response is the error text, not `ok`. -/
theorem configHandler_write_failure :
    (sampleLib.Unmarshal (lit "\x7b\x7d") Config.zero).2 = none ∧
    (configHandler sampleLib
      (WriteResult.failed (lit "open config.json: permission denied") (some (lit "\x7b\x7d")))
      ResponseWriter.new
      { Method := lit "POST", Authorization := lit "Basic YWRtaW46MTIzNDU2",
        Body := lit "\x7b\x7d" }
      sampleWorld).2.body = lit "JSON错误: open config.json: permission denied" ∧
    lit "JSON错误: open config.json: permission denied" ≠ lit "ok" := by
  decide

/-- C6, amended. For a request to the `/api/config` handler whose method is
neither GET nor HEAD, the response body is `ok` exactly when the body decodes
and the write of `config.json` succeeds, and when the body does not decode it
is `JSON错误: ` followed by the decoder's error.  For a HEAD request the
response has no body. -/
theorem configHandler_response (lib : Lib) (res : WriteResult) (r : Request) (s : World)
    (hm : r.Method ≠ lit "GET") :
    (r.Method ≠ lit "HEAD" →
      ((configHandler lib res ResponseWriter.new r s).2.body = lit "ok" ↔
        (lib.Unmarshal r.Body Config.zero).2 = none ∧ res = WriteResult.ok) ∧
      (∀ err, (lib.Unmarshal r.Body Config.zero).2 = some err →
        (configHandler lib res ResponseWriter.new r s).2.body = lit "JSON错误: " ++ err)) ∧
    (r.Method = lit "HEAD" → (configHandler lib res ResponseWriter.new r s).2.body = []) := by
  have hch : ∃ x : GoString, configHandler lib res ResponseWriter.new r s
      = ((saveConfig lib res r.Body s).1, ResponseWriter.new.Write r x) := by
    unfold configHandler
    rw [if_neg hm]
    simp only []
    split <;> rename_i h <;> rw [h] <;> exact ⟨_, rfl⟩
  constructor
  · intro hh
    have hbody : ∀ x : GoString, (ResponseWriter.new.Write r x).body = x := by
      intro x
      rw [Write_new_body, if_neg hh]
    have herr : ∀ err, (lib.Unmarshal r.Body Config.zero).2 = some err →
        (configHandler lib res ResponseWriter.new r s).2.body = lit "JSON错误: " ++ err := by
      intro err he
      simp [configHandler, hm, saveConfig_error lib res r.Body err s he, hbody]
    have hfail : ∀ err left, (lib.Unmarshal r.Body Config.zero).2 = none →
        res = WriteResult.failed err left →
        (configHandler lib res ResponseWriter.new r s).2.body = lit "JSON错误: " ++ err := by
      intro err left hok hres
      subst hres
      simp [configHandler, hm, saveConfig_decoded lib _ r.Body s hok, WriteFile, hbody]
    refine ⟨?_, herr⟩
    constructor
    · intro h
      cases hd : (lib.Unmarshal r.Body Config.zero).2 with
      | some err => exact absurd ((herr err hd).symm.trans h) (lit_JSON_error_ne_ok err)
      | none =>
        cases hres : res with
        | ok => exact ⟨rfl, rfl⟩
        | failed err left =>
          exact absurd ((hfail err left hd hres).symm.trans h) (lit_JSON_error_ne_ok err)
    · rintro ⟨hok, hres⟩
      subst hres
      simp [configHandler, hm, saveConfig_decoded lib _ r.Body s hok, WriteFile, hbody]
  · intro hh
    obtain ⟨x, hx⟩ := hch
    rw [hx, Write_new_body, if_pos hh]

/-- C6 amended, at the body `{}` with a write that succeeds, sent by POST and
by HEAD. -/
theorem configHandler_response_witness :
    lit "POST" ≠ lit "GET" ∧ lit "POST" ≠ lit "HEAD" ∧
    (configHandler sampleLib WriteResult.ok ResponseWriter.new
      { Method := lit "POST", Authorization := lit "Basic YWRtaW46MTIzNDU2",
        Body := lit "\x7b\x7d" } sampleWorld).2.body = lit "ok" ∧
    lit "HEAD" ≠ lit "GET" ∧
    (configHandler sampleLib WriteResult.ok ResponseWriter.new
      { Method := lit "HEAD", Authorization := lit "Basic YWRtaW46MTIzNDU2",
        Body := lit "\x7b\x7d" } sampleWorld).2.body = [] :=
  ⟨by decide, by decide,
   ((configHandler_response sampleLib WriteResult.ok
      { Method := lit "POST", Authorization := lit "Basic YWRtaW46MTIzNDU2",
        Body := lit "\x7b\x7d" } sampleWorld (by decide)).1 (by decide)).1.mpr
      ⟨by decide, rfl⟩,
   by decide,
   (configHandler_response sampleLib WriteResult.ok
      { Method := lit "HEAD", Authorization := lit "Basic YWRtaW46MTIzNDU2",
        Body := lit "\x7b\x7d" } sampleWorld (by decide)).2 rfl⟩

/-- C10. With `config.json` holding `b`, `loadConfig` followed by `saveConfig b`:
when `b` does not decode, no write is issued and the file still holds `b`; when
`b` decodes, exactly one write is issued, its data is `b` itself, and the file
the write leaves when it is carried out holds `b`. -/
theorem loadConfig_saveConfig_roundtrip (lib : Lib) (res : WriteResult) (b : GoString)
    (s : World) (hb : s.configJson = some b) :
    ((lib.Unmarshal b Config.zero).2 ≠ none →
      (saveConfig lib res b (loadConfig lib s)).1.writes = s.writes ∧
      (saveConfig lib res b (loadConfig lib s)).1.configJson = some b) ∧
    ((lib.Unmarshal b Config.zero).2 = none →
      (saveConfig lib res b (loadConfig lib s)).1.writes = s.writes ++ [b] ∧
      (res = WriteResult.ok →
        (saveConfig lib res b (loadConfig lib s)).1.configJson = some b)) := by
  constructor
  · intro hf
    obtain ⟨err, he⟩ := Option.ne_none_iff_exists'.mp hf
    rw [saveConfig_error lib res b err _ he]
    exact ⟨rfl, hb⟩
  · intro hok
    rw [saveConfig_decoded lib res b _ hok]
    refine ⟨by cases res <;> rfl, ?_⟩
    intro hres
    rw [hres]
    rfl

/-- C10, at a `config.json` that holds `{}`. -/
theorem loadConfig_saveConfig_roundtrip_witness :
    sampleWorld.configJson = some (lit "\x7b\x7d") ∧
    (sampleLib.Unmarshal (lit "\x7b\x7d") Config.zero).2 = none ∧
    (saveConfig sampleLib WriteResult.ok (lit "\x7b\x7d")
      (loadConfig sampleLib sampleWorld)).1.writes = [lit "\x7b\x7d"] ∧
    (saveConfig sampleLib WriteResult.ok (lit "\x7b\x7d")
      (loadConfig sampleLib sampleWorld)).1.configJson = some (lit "\x7b\x7d") :=
  ⟨by decide, by decide,
   ((loadConfig_saveConfig_roundtrip sampleLib WriteResult.ok (lit "\x7b\x7d") sampleWorld
      (by decide)).2 (by decide)).1,
   ((loadConfig_saveConfig_roundtrip sampleLib WriteResult.ok (lit "\x7b\x7d") sampleWorld
      (by decide)).2 (by decide)).2 rfl⟩

/-! ## Theorems: issuance runner -/

theorem logStep_eq (name : GoString) (fn : List Event → List Event × Option GoString)
    (t : List Event) :
    logStep name fn t =
      (fn (t ++ [Event.log "[STEP] %s 开始\n" [name]])).1 ++
        [stepEnd name (fn (t ++ [Event.log "[STEP] %s 开始\n" [name]])).2] := by
  unfold logStep stepEnd
  generalize fn (t ++ [Event.log "[STEP] %s 开始\n" [name]]) = r
  obtain ⟨t1, result⟩ := r
  cases result <;> rfl

/-- A step whose action is one command, possibly after other events `pre`. -/
theorem logStep_run (o : Oracle) (name cmd : GoString) (args : List GoString)
    (pre t : List Event) :
    ∃ result : Option GoString,
      logStep name (fun t => run o cmd args (t ++ pre)) t =
        t ++ ([Event.log "[STEP] %s 开始\n" [name]] ++ pre ++
          [Event.exec cmd args, stepEnd name result]) := by
  refine ⟨o (t ++ [Event.log "[STEP] %s 开始\n" [name]] ++ pre ++ [Event.exec cmd args]), ?_⟩
  rw [logStep_eq]
  simp [run]

theorem commands_append (t u : List Event) : commands (t ++ u) = commands t ++ commands u := by
  simp [commands, List.filterMap_append]

theorem logs_append (t u : List Event) : logs (t ++ u) = logs t ++ logs u := by
  simp [logs, List.filterMap_append]

/-- The events of one pass of the loop body. -/
theorem issueDomain_eq (o : Oracle) (acme : GoString) (cfg : Config) (t : List Event)
    (d : Domain) :
    ∃ r₁ r₂ : Option GoString,
      issueDomain o acme cfg t d = t ++
        [Event.log "[DOMAIN] %s 开始\n" [d.Domain],
         Event.log "[STEP] %s 开始\n" [lit "申请证书 " ++ d.Domain],
         Event.exec acme [lit "--issue", lit "--server", lit "letsencrypt",
           lit "--days", Itoa cfg.RenewDays, lit "-d", d.Domain, lit "-w", d.Webroot],
         stepEnd (lit "申请证书 " ++ d.Domain) r₁,
         Event.log "[STEP] %s 开始\n" [lit "安装证书 " ++ d.Domain],
         Event.mkdirAll d.InstallPath,
         Event.exec acme [lit "--install-cert", lit "-d", d.Domain,
           lit "--key-file", d.InstallPath ++ lit "/privkey.pem",
           lit "--fullchain-file", d.InstallPath ++ lit "/fullchain.pem"],
         stepEnd (lit "安装证书 " ++ d.Domain) r₂,
         Event.log "[DOMAIN] %s 完成\n" [d.Domain]] := by
  obtain ⟨r₁, h₁⟩ := logStep_run o (lit "申请证书 " ++ d.Domain) acme
    [lit "--issue", lit "--server", lit "letsencrypt",
      lit "--days", Itoa cfg.RenewDays, lit "-d", d.Domain, lit "-w", d.Webroot] []
    (t ++ [Event.log "[DOMAIN] %s 开始\n" [d.Domain]])
  simp only [List.append_nil] at h₁
  obtain ⟨r₂, h₂⟩ := logStep_run o (lit "安装证书 " ++ d.Domain) acme
    [lit "--install-cert", lit "-d", d.Domain,
      lit "--key-file", d.InstallPath ++ lit "/privkey.pem",
      lit "--fullchain-file", d.InstallPath ++ lit "/fullchain.pem"]
    [Event.mkdirAll d.InstallPath]
    (logStep (lit "申请证书 " ++ d.Domain) (fun t =>
      run o acme [lit "--issue", lit "--server", lit "letsencrypt",
        lit "--days", Itoa cfg.RenewDays, lit "-d", d.Domain, lit "-w", d.Webroot] t)
      (t ++ [Event.log "[DOMAIN] %s 开始\n" [d.Domain]]))
  refine ⟨r₁, r₂, ?_⟩
  unfold issueDomain
  simp only []
  rw [h₂, h₁]
  simp

/-- The events of the whole loop: the commands. -/
theorem foldl_issueDomain_commands (o : Oracle) (acme : GoString) (cfg : Config)
    (ds : List Domain) (t : List Event) :
    commands (ds.foldl (issueDomain o acme cfg) t) = commands t ++
      ds.flatMap (fun d =>
        [(acme, [lit "--issue", lit "--server", lit "letsencrypt",
            lit "--days", Itoa cfg.RenewDays, lit "-d", d.Domain, lit "-w", d.Webroot]),
         (acme, [lit "--install-cert", lit "-d", d.Domain,
            lit "--key-file", d.InstallPath ++ lit "/privkey.pem",
            lit "--fullchain-file", d.InstallPath ++ lit "/fullchain.pem"])]) := by
  induction ds generalizing t with
  | nil => simp
  | cons d ds ih =>
    obtain ⟨r₁, r₂, h⟩ := issueDomain_eq o acme cfg t d
    rw [List.foldl_cons, ih, h, commands_append]
    cases r₁ <;> cases r₂ <;> simp [commands, stepEnd]

/-- The events of the whole loop: the log lines. -/
theorem foldl_issueDomain_logs (o : Oracle) (acme : GoString) (cfg : Config)
    (ds : List Domain) (t : List Event) :
    ∃ rs : List (Option GoString × Option GoString), rs.length = ds.length ∧
      logs (ds.foldl (issueDomain o acme cfg) t) = logs t ++
        (ds.zip rs).flatMap (fun x =>
          [("[DOMAIN] %s 开始\n", [x.1.Domain])] ++
          stepRecords (lit "申请证书 " ++ x.1.Domain) x.2.1 ++
          stepRecords (lit "安装证书 " ++ x.1.Domain) x.2.2 ++
          [("[DOMAIN] %s 完成\n", [x.1.Domain])]) := by
  induction ds generalizing t with
  | nil => exact ⟨[], rfl, by simp⟩
  | cons d ds ih =>
    obtain ⟨r₁, r₂, h⟩ := issueDomain_eq o acme cfg t d
    obtain ⟨rs, hlen, hrs⟩ := ih (issueDomain o acme cfg t d)
    refine ⟨(r₁, r₂) :: rs, by simp [hlen], ?_⟩
    rw [List.foldl_cons, hrs, h, logs_append]
    cases r₁ <;> cases r₂ <;> simp [logs, stepEnd, stepRecords]

/-- The events of `issueAll` before the loop. -/
theorem issueAll_eq (o : Oracle) (acme : GoString) (cfg : Config) (t : List Event) :
    ∃ r₁ r₂ : Option GoString,
      issueAll o acme cfg t =
        cfg.Domains.foldl (issueDomain o acme cfg) (t ++
          [Event.log "[TASK] 证书任务开始" [],
           Event.log "[STEP] %s 开始\n" [lit "安装 acme.sh"],
           Event.exec (lit "sh")
             [lit "-c", lit "curl https://get.acme.sh | sh -s email=" ++ cfg.Email],
           stepEnd (lit "安装 acme.sh") r₁,
           Event.log "[STEP] %s 开始\n" [lit "设置默认 CA"],
           Event.exec acme [lit "--set-default-ca", lit "--server", lit "letsencrypt"],
           stepEnd (lit "设置默认 CA") r₂]) ++
        [Event.log "[TASK] 证书任务结束" []] := by
  obtain ⟨r₁, h₁⟩ := logStep_run o (lit "安装 acme.sh") (lit "sh")
    [lit "-c", lit "curl https://get.acme.sh | sh -s email=" ++ cfg.Email] []
    (t ++ [Event.log "[TASK] 证书任务开始" []])
  simp only [List.append_nil] at h₁
  obtain ⟨r₂, h₂⟩ := logStep_run o (lit "设置默认 CA") acme
    [lit "--set-default-ca", lit "--server", lit "letsencrypt"] []
    (logStep (lit "安装 acme.sh") (fun t => run o (lit "sh")
      [lit "-c", lit "curl https://get.acme.sh | sh -s email=" ++ cfg.Email] t)
      (t ++ [Event.log "[TASK] 证书任务开始" []]))
  simp only [List.append_nil] at h₂
  refine ⟨r₁, r₂, ?_⟩
  unfold issueAll
  simp only []
  rw [h₂, h₁]
  simp

/-- The commands of a run started on the empty event list. -/
theorem issueAll_eq_commands (o : Oracle) (acme : GoString) (cfg : Config) :
    commands (issueAll o acme cfg []) =
      [(lit "sh", [lit "-c", lit "curl https://get.acme.sh | sh -s email=" ++ cfg.Email]),
       (acme, [lit "--set-default-ca", lit "--server", lit "letsencrypt"])] ++
      cfg.Domains.flatMap (fun d =>
        [(acme, [lit "--issue", lit "--server", lit "letsencrypt",
            lit "--days", Itoa cfg.RenewDays, lit "-d", d.Domain, lit "-w", d.Webroot]),
         (acme, [lit "--install-cert", lit "-d", d.Domain,
            lit "--key-file", d.InstallPath ++ lit "/privkey.pem",
            lit "--fullchain-file", d.InstallPath ++ lit "/fullchain.pem"])]) := by
  obtain ⟨r₁, r₂, h⟩ := issueAll_eq o acme cfg []
  rw [h, commands_append, foldl_issueDomain_commands]
  cases r₁ <;> cases r₂ <;> simp [commands, stepEnd]

/-- C7. For every configuration, every outcome of the external commands and
every earlier event list, the commands `issueAll` starts are, in order: the
acme.sh install through `sh -c`, the set-default-CA command, then for each
domain in list order its `--issue` command followed at once by its
`--install-cert` command with the key file `InstallPath/privkey.pem` and the
chain `InstallPath/fullchain.pem`.  The list does not depend on what the
commands return, and it has `2 + 2N` entries for `N` domains. -/
theorem issueAll_commands (o : Oracle) (acme : GoString) (cfg : Config) (t : List Event) :
    commands (issueAll o acme cfg t) = commands t ++
      [(lit "sh", [lit "-c", lit "curl https://get.acme.sh | sh -s email=" ++ cfg.Email]),
       (acme, [lit "--set-default-ca", lit "--server", lit "letsencrypt"])] ++
      cfg.Domains.flatMap (fun d =>
        [(acme, [lit "--issue", lit "--server", lit "letsencrypt",
            lit "--days", Itoa cfg.RenewDays, lit "-d", d.Domain, lit "-w", d.Webroot]),
         (acme, [lit "--install-cert", lit "-d", d.Domain,
            lit "--key-file", d.InstallPath ++ lit "/privkey.pem",
            lit "--fullchain-file", d.InstallPath ++ lit "/fullchain.pem"])]) ∧
    (commands (issueAll o acme cfg [])).length = 2 + 2 * cfg.Domains.length := by
  have key : ∀ t : List Event, commands (issueAll o acme cfg t) = commands t ++
      [(lit "sh", [lit "-c", lit "curl https://get.acme.sh | sh -s email=" ++ cfg.Email]),
       (acme, [lit "--set-default-ca", lit "--server", lit "letsencrypt"])] ++
      cfg.Domains.flatMap (fun d =>
        [(acme, [lit "--issue", lit "--server", lit "letsencrypt",
            lit "--days", Itoa cfg.RenewDays, lit "-d", d.Domain, lit "-w", d.Webroot]),
         (acme, [lit "--install-cert", lit "-d", d.Domain,
            lit "--key-file", d.InstallPath ++ lit "/privkey.pem",
            lit "--fullchain-file", d.InstallPath ++ lit "/fullchain.pem"])]) := by
    intro t
    obtain ⟨r₁, r₂, h⟩ := issueAll_eq o acme cfg t
    rw [h, commands_append, foldl_issueDomain_commands, commands_append]
    cases r₁ <;> cases r₂ <;> simp [commands, stepEnd]
  refine ⟨key t, ?_⟩
  rw [key []]
  have hlen : ∀ ds : List Domain, (ds.flatMap (fun d =>
        [(acme, [lit "--issue", lit "--server", lit "letsencrypt",
            lit "--days", Itoa cfg.RenewDays, lit "-d", d.Domain, lit "-w", d.Webroot]),
         (acme, [lit "--install-cert", lit "-d", d.Domain,
            lit "--key-file", d.InstallPath ++ lit "/privkey.pem",
            lit "--fullchain-file", d.InstallPath ++ lit "/fullchain.pem"])])).length
        = 2 * ds.length := by
    intro ds
    induction ds with
    | nil => rfl
    | cons d ds ih =>
      rw [List.flatMap_cons, List.length_append, ih, List.length_cons]
      simp only [List.length_cons, List.length_nil]
      omega
  rw [List.length_append, hlen]
  simp [commands]

theorem filter_issue_flatMap (acme : GoString) (cfg : Config) (ds : List Domain) :
    (ds.flatMap (fun d =>
        [(acme, [lit "--issue", lit "--server", lit "letsencrypt",
            lit "--days", Itoa cfg.RenewDays, lit "-d", d.Domain, lit "-w", d.Webroot]),
         (acme, [lit "--install-cert", lit "-d", d.Domain,
            lit "--key-file", d.InstallPath ++ lit "/privkey.pem",
            lit "--fullchain-file", d.InstallPath ++ lit "/fullchain.pem"])])).filter
      (fun c => c.2.head? = some (lit "--issue")) =
    ds.map (fun d => (acme, [lit "--issue", lit "--server", lit "letsencrypt",
      lit "--days", Itoa cfg.RenewDays, lit "-d", d.Domain, lit "-w", d.Webroot])) := by
  have h : ¬ (lit "--install-cert" = lit "--issue") := by decide
  induction ds with
  | nil => rfl
  | cons d ds ih =>
    rw [List.flatMap_cons, List.filter_append, ih]
    simp [List.filter, h]

/-- C8, as stated, fails on the order: in the example (`a.test`, `b.test`,
`renew_days` 90) the `--issue` invocation of `a.test` does not contain the run
`-d a.test -w /var/www/a --days 90`, not even with other arguments in between:
`--days 90` comes before `-d a.test`. -/
theorem issueAll_issue_argument_order :
    issueInvocations
        (issueAll (fun _ => none) (lit "/root/.acme.sh/acme.sh") exampleConfig []) =
      [(lit "/root/.acme.sh/acme.sh",
          [lit "--issue", lit "--server", lit "letsencrypt", lit "--days", lit "90",
           lit "-d", lit "a.test", lit "-w", lit "/var/www/a"]),
       (lit "/root/.acme.sh/acme.sh",
          [lit "--issue", lit "--server", lit "letsencrypt", lit "--days", lit "90",
           lit "-d", lit "b.test", lit "-w", lit "/var/www/b"])] ∧
    ¬ List.Sublist
        [lit "-d", lit "a.test", lit "-w", lit "/var/www/a", lit "--days", lit "90"]
        [lit "--issue", lit "--server", lit "letsencrypt", lit "--days", lit "90",
         lit "-d", lit "a.test", lit "-w", lit "/var/www/a"] := by
  decide

/-- C8, amended. For every configuration and every outcome of the commands,
the `--issue` invocations of `issueAll` are one per entry of the domain list, in
list order, and none else; the arguments of each are `--issue --server
letsencrypt --days <renew_days in decimal> -d <domain> -w <webroot>`.  In the
example (`a.test`, `b.test`, `renew_days` 90) they are the two invocations ending
in `--days 90 -d a.test -w /var/www/a` and `--days 90 -d b.test -w /var/www/b`. -/
theorem issueAll_issue_invocations (o : Oracle) (acme : GoString) (cfg : Config) :
    issueInvocations (issueAll o acme cfg []) =
      cfg.Domains.map (fun d => (acme, [lit "--issue", lit "--server", lit "letsencrypt",
        lit "--days", Itoa cfg.RenewDays, lit "-d", d.Domain, lit "-w", d.Webroot])) ∧
    issueInvocations (issueAll o acme exampleConfig []) =
      [(acme, [lit "--issue", lit "--server", lit "letsencrypt", lit "--days", lit "90",
          lit "-d", lit "a.test", lit "-w", lit "/var/www/a"]),
       (acme, [lit "--issue", lit "--server", lit "letsencrypt", lit "--days", lit "90",
          lit "-d", lit "b.test", lit "-w", lit "/var/www/b"])] := by
  have key : ∀ cfg : Config, issueInvocations (issueAll o acme cfg []) =
      cfg.Domains.map (fun d => (acme, [lit "--issue", lit "--server", lit "letsencrypt",
        lit "--days", Itoa cfg.RenewDays, lit "-d", d.Domain, lit "-w", d.Webroot])) := by
    intro cfg
    have h1 : ¬ (lit "-c" = lit "--issue") := by decide
    have h2 : ¬ (lit "--set-default-ca" = lit "--issue") := by decide
    rw [issueInvocations, (issueAll_eq_commands o acme cfg), List.filter_append,
      filter_issue_flatMap]
    simp [List.filter, h1, h2]
  refine ⟨key cfg, ?_⟩
  rw [key exampleConfig]
  have h90 : Itoa exampleConfig.RenewDays = lit "90" := by decide
  rw [h90]
  rfl

/-- C9. For every configuration, every outcome of the commands and every earlier
event list, the log lines `issueAll` appends are: the task start line, the two
records of the install step, the two records of the CA step, then for each
domain in list order its start marker, the start record and the one success or
failure record of its request step, the start record and the one success or
failure record of its install step, and its finish marker, and last the task end
line.  The block of a domain is closed before the next one opens. -/
theorem issueAll_logs (o : Oracle) (acme : GoString) (cfg : Config) (t : List Event) :
    ∃ (r₁ r₂ : Option GoString) (rs : List (Option GoString × Option GoString)),
      rs.length = cfg.Domains.length ∧
      logs (issueAll o acme cfg t) = logs t ++
        [("[TASK] 证书任务开始", [])] ++
        stepRecords (lit "安装 acme.sh") r₁ ++
        stepRecords (lit "设置默认 CA") r₂ ++
        (cfg.Domains.zip rs).flatMap (fun x =>
          [("[DOMAIN] %s 开始\n", [x.1.Domain])] ++
          stepRecords (lit "申请证书 " ++ x.1.Domain) x.2.1 ++
          stepRecords (lit "安装证书 " ++ x.1.Domain) x.2.2 ++
          [("[DOMAIN] %s 完成\n", [x.1.Domain])]) ++
        [("[TASK] 证书任务结束", [])] := by
  obtain ⟨r₁, r₂, h⟩ := issueAll_eq o acme cfg t
  obtain ⟨rs, hlen, hrs⟩ := foldl_issueDomain_logs o acme cfg cfg.Domains (t ++
    [Event.log "[TASK] 证书任务开始" [],
     Event.log "[STEP] %s 开始\n" [lit "安装 acme.sh"],
     Event.exec (lit "sh")
       [lit "-c", lit "curl https://get.acme.sh | sh -s email=" ++ cfg.Email],
     stepEnd (lit "安装 acme.sh") r₁,
     Event.log "[STEP] %s 开始\n" [lit "设置默认 CA"],
     Event.exec acme [lit "--set-default-ca", lit "--server", lit "letsencrypt"],
     stepEnd (lit "设置默认 CA") r₂])
  refine ⟨r₁, r₂, rs, hlen, ?_⟩
  rw [h, logs_append, hrs, logs_append]
  cases r₁ <;> cases r₂ <;> simp [logs, stepEnd, stepRecords]

end DomainCert
